import Mathlib

/-!
Verification of the reconciliation core of the GitLab-to-GitHub migration
scripts.  Each Python function used by the claims is translated into an
executable Lean definition; the destination platform (GitHub) is modelled as
an explicit state record threaded through the client functions, together
with a log of the successful mutations the client performed.  HTTP responses
are modelled as a status code plus a body text, matching what the Python
code inspects (`r.status_code`, `r.text`, `r.json()`).
-/

namespace Migration

/-- Python's `sub in s` substring test, computed over the character lists of
the two strings. -/
def strContains (s sub : String) : Bool :=
  let cs := s.toList
  let ps := sub.toList
  (List.range (cs.length + 1)).any fun i => ps.isPrefixOf (cs.drop i)

/-- An HTTP response as the Python code sees it: `r.status_code` and `r.text`. -/
structure Resp where
  status : Nat
  text : String
deriving DecidableEq

/-- One successful mutation performed against the destination platform.
`import_project_mrs` issues these through the helper functions; the log lets
us state ordering properties (content before terminal state transitions). -/
inductive Act where
  | createRefAct (branch sha : String)
  | createPRAct (number : Nat)
  | createIssueAct (number : Nat)
  | createLabelAct (name : String)
  | createMilestoneAct (title : String)
  | patchLabelsAct (number : Nat)
  | patchMilestoneAct (number : Nat)
  | addCommentAct (number : Nat)
  | mergeAct (number : Nat)
  | closeAct (number : Nat)
deriving DecidableEq

/-- Terminal state transitions: merging or closing a destination object. -/
def Act.isTerminal : Act → Bool
  | .mergeAct _ => true
  | .closeAct _ => true
  | _ => false

/-- A pull request stored on the destination (GitHub) side. -/
structure PR where
  number : Nat
  title : String
  body : String
  head : String
  base : String
  state : String
  labels : List String
  milestone : Option Nat
deriving DecidableEq

/-- An issue stored on the destination (GitHub) side. -/
structure Issue where
  number : Nat
  title : String
  body : String
  labels : List String
  state : String
  milestone : Option Nat
  assignees : List String
deriving DecidableEq

/-- The destination (GitHub) repository state, together with the client-side
log of successful mutations (`log`) and counters for the `logging.warning` /
`logging.error` lines the client emitted. -/
structure GH where
  branches : List (String × String)
  commits : List String
  default_branch : String
  prs : List PR
  issues : List Issue
  labels : List String
  milestones : List String
  comments : List (Nat × String)
  nextNumber : Nat
  log : List Act
  warnings : Nat
  errors : Nat
deriving DecidableEq

namespace GitlabPrToGithub

open Migration

/-- `flatten_repo_name` (gitlab_pr_to_github.py line 32): replace every "/"
by "__".  Python's `str.replace` with a one-character pattern rewrites each
matching character, modelled here over the character list. -/
def flatten_repo_name (full_path : String) : String :=
  String.mk (full_path.toList.flatMap fun c => if c = '/' then ['_', '_'] else [c])

/-- `map_user` (lines 81-84).  `gl_username` is `Optional[str]`; Python's
`if not gl_username` is true for both `None` and the empty string. -/
def map_user (userMap : List (String × String)) (gl_username : Option String) : String :=
  match gl_username with
  | none => "unknown"
  | some u => if u = "" then "unknown" else (userMap.lookup u).getD u

/-- `github_repo_default_branch` (lines 88-91): `.get("default_branch") or
"main"`, with the absent/empty field modelled by the empty string. -/
def github_repo_default_branch (st : GH) : String :=
  if st.default_branch = "" then "main" else st.default_branch

/-- `github_branch_exists` (lines 93-100): GET of the ref, 200 iff present. -/
def github_branch_exists (st : GH) (branch : String) : Bool :=
  (st.branches.lookup branch).isSome

/-- `github_commit_exists` (lines 102-104): GET of the commit, 200 iff present. -/
def github_commit_exists (st : GH) (sha : String) : Bool :=
  st.commits.contains sha

/-- Fake GitHub endpoint POST /git/refs: 422 "Reference already exists" when
the ref is taken, otherwise 201 and the ref is recorded. -/
def GH.postRef (st : GH) (branch sha : String) : Resp × GH :=
  if (st.branches.lookup branch).isSome then
    ({ status := 422, text := "Validation Failed: Reference already exists" }, st)
  else
    ({ status := 201, text := "" },
     { st with branches := st.branches ++ [(branch, sha)],
               log := st.log ++ [.createRefAct branch sha] })

/-- The character filter in `create_branch_from_sha` line 108: every
alphanumeric character of the lowercased sha must be a hex digit
(non-alphanumeric characters are skipped by the `if c.isalnum()` clause). -/
def shaCharsOk (sha : String) : Bool :=
  (sha.toList.map Char.toLower).all fun c =>
    !c.isAlphanum || ("0123456789abcdef".toList.contains c)

/-- `create_branch_from_sha` (lines 106-121). -/
def create_branch_from_sha (st : GH) (branch sha : String) : Bool × GH :=
  if sha = "" || !shaCharsOk sha then (false, st)
  else if !github_commit_exists st sha then (false, st)
  else
    let r := GH.postRef st branch sha
    if r.1.status = 200 || r.1.status = 201 then (true, r.2)
    else if r.1.status = 422 && strContains r.1.text "Reference already exists" then (true, r.2)
    else (false, { r.2 with warnings := r.2.warnings + 1 })

/-- Fake GitHub endpoint POST /labels: 422 when the label already exists,
otherwise 201 and the label is recorded. -/
def GH.postLabel (st : GH) (name : String) : Resp × GH :=
  if st.labels.contains name then
    ({ status := 422, text := "Validation Failed: already_exists" }, st)
  else
    ({ status := 201, text := "" },
     { st with labels := st.labels ++ [name],
               log := st.log ++ [.createLabelAct name] })

/-- `ensure_labels` (lines 125-130): POST each label, warn unless the status
is 200, 201 or 422. -/
def ensure_labels (st : GH) : List String → GH
  | [] => st
  | l :: ls =>
    let r := GH.postLabel st l
    let st2 :=
      if r.1.status = 200 || r.1.status = 201 || r.1.status = 422 then r.2
      else { r.2 with warnings := r.2.warnings + 1 }
    ensure_labels st2 ls

/-- Fake GitHub endpoint POST /milestones: 422 when a milestone with the
title exists, otherwise 201; milestone numbers are positions plus one. -/
def GH.postMilestone (st : GH) (title : String) : Resp × GH :=
  if st.milestones.contains title then
    ({ status := 422, text := "Validation Failed: already_exists" }, st)
  else
    ({ status := 201, text := "" },
     { st with milestones := st.milestones ++ [title],
               log := st.log ++ [.createMilestoneAct title] })

/-- `ensure_milestone` (lines 132-145): GET the first 100 milestones (the
listing is requested with `per_page: 100` and never paginated), return the
number of the one matching by title, else POST a new one. -/
def ensure_milestone (st : GH) (title : String) : Option Nat × GH :=
  if title = "" then (none, st)
  else
    match (st.milestones.take 100).indexOf? title with
    | some i => (some (i + 1), st)
    | none =>
      let r := GH.postMilestone st title
      if r.1.status = 200 || r.1.status = 201 then (some (st.milestones.length + 1), r.2)
      else (none, { r.2 with warnings := r.2.warnings + 1 })

/-- Fake GitHub endpoint PATCH /issues/n with a labels payload; applies to
the pull request or issue numbered `n` (they share one number space). -/
def GH.patchIssueLabels (st : GH) (n : Nat) (ls : List String) : GH :=
  { st with prs := st.prs.map fun pr => if pr.number = n then { pr with labels := ls } else pr,
            issues := st.issues.map fun i => if i.number = n then { i with labels := ls } else i,
            log := st.log ++ [.patchLabelsAct n] }

/-- Fake GitHub endpoint PATCH /issues/n with a milestone payload. -/
def GH.patchIssueMilestone (st : GH) (n m : Nat) : GH :=
  { st with prs := st.prs.map fun pr => if pr.number = n then { pr with milestone := some m } else pr,
            issues := st.issues.map fun i => if i.number = n then { i with milestone := some m } else i,
            log := st.log ++ [.patchMilestoneAct n] }

/-- `set_labels_and_milestone` (lines 147-154). -/
def set_labels_and_milestone (st : GH) (pr_number : Nat) (labels : List String)
    (milestone_title : String) : GH :=
  let st1 := if labels ≠ [] then GH.patchIssueLabels (ensure_labels st labels) pr_number labels else st
  if milestone_title ≠ "" then
    let ms := ensure_milestone st1 milestone_title
    match ms.1 with
    | some m => if m ≠ 0 then GH.patchIssueMilestone ms.2 pr_number m else ms.2
    | none => ms.2
  else st1

/-- Fake GitHub endpoint POST /issues/n/comments: record the comment. -/
def GH.postComment (st : GH) (number : Nat) (body : String) : GH :=
  { st with comments := st.comments ++ [(number, body)],
            log := st.log ++ [.addCommentAct number] }

/-- `add_issue_comment` (lines 156-157). -/
def add_issue_comment (st : GH) (pr_number : Nat) (body : String) : GH :=
  GH.postComment st pr_number body

/-- Fake GitHub endpoint POST /issues: always succeeds, assigning the next
number in the shared PR/issue number space. -/
def GH.postIssue (st : GH) (title body : String) (labels assignees : List String) :
    Resp × Nat × GH :=
  ({ status := 201, text := "" }, st.nextNumber,
   { st with issues := st.issues ++ [⟨st.nextNumber, title, body, labels, "open", none, assignees⟩],
             nextNumber := st.nextNumber + 1,
             log := st.log ++ [.createIssueAct st.nextNumber] })

/-- `create_issue` (lines 159-164). -/
def create_issue (st : GH) (title body : String) (labels : List String) : Option Nat × GH :=
  let r := GH.postIssue st title body labels []
  if r.1.status = 200 || r.1.status = 201 then (some r.2.1, r.2.2)
  else (none, { r.2.2 with errors := r.2.2.errors + 1 })

/-- The page-scanning loop of `find_existing_pr_by_marker` (lines 166-182):
fetch pages of 100 pull requests, return `None` as soon as a page comes back
empty, otherwise look up each pull request's issue view and compare the
marker against its body (`.get("body") or ""`).  The remaining suffix of the
pull-request list stands for the pages not yet fetched. -/
def findPRPageLoop (marker : String) (prs : List PR) : Option Nat :=
  if h : (prs.take 100).isEmpty then none
  else
    match (prs.take 100).find? (fun pr => strContains pr.body marker) with
    | some pr => some pr.number
    | none => findPRPageLoop marker (prs.drop 100)
termination_by prs.length
decreasing_by
  have hne : prs ≠ [] := by
    intro hx
    subst hx
    simp at h
  have hpos : 0 < prs.length := List.length_pos.mpr hne
  simp [List.length_drop]
  omega

/-- `find_existing_pr_by_marker` (lines 166-182). -/
def find_existing_pr_by_marker (st : GH) (marker : String) : Option Nat :=
  findPRPageLoop marker st.prs

/-- The commit a branch currently points at. -/
def shaOfBranch (st : GH) (branch : String) : Option String :=
  st.branches.lookup branch

/-- Fake GitHub endpoint POST /pulls: rejects a missing head or base branch
with the "head invalid" validation error, rejects a head/base pair whose
branches point at the same commit with "No commits between", and otherwise
creates the pull request under the next shared number. -/
def GH.postPR (st : GH) (title body head base : String) : Except Resp (Nat × GH) :=
  if !github_branch_exists st head || !github_branch_exists st base then
    .error { status := 422,
             text := "Validation Failed: \"resource\":\"PullRequest\",\"field\":\"head\",\"code\":\"invalid\"" }
  else if shaOfBranch st head = shaOfBranch st base then
    .error { status := 422, text := "Validation Failed: No commits between " ++ base ++ " and " ++ head }
  else
    .ok (st.nextNumber,
      { st with prs := st.prs ++ [⟨st.nextNumber, title, body, head, base, "open", [], none⟩],
                nextNumber := st.nextNumber + 1,
                log := st.log ++ [.createPRAct st.nextNumber] })

/-- `create_or_get_pr` (lines 184-193).  Python's `if existing:` is false
for both `None` and `0`; `raise_for_status` on the POST is the `.error`
case. -/
def create_or_get_pr (st : GH) (title body head base marker : String) : Except Resp (Nat × GH) :=
  match find_existing_pr_by_marker st marker with
  | some existing => if existing = 0 then GH.postPR st title body head base else .ok (existing, st)
  | none => GH.postPR st title body head base

/-- Fake GitHub endpoint PUT /pulls/n/merge: merges an open pull request
whose head and base do not point at the same commit, otherwise 405. -/
def GH.putMerge (st : GH) (n : Nat) : Resp × GH :=
  match st.prs.find? (fun pr => pr.number = n) with
  | some pr =>
    if pr.state = "open" && shaOfBranch st pr.head ≠ shaOfBranch st pr.base then
      ({ status := 200, text := "" },
       { st with prs := st.prs.map fun p => if p.number = n then { p with state := "merged" } else p,
                 log := st.log ++ [.mergeAct n] })
    else ({ status := 405, text := "Pull Request is not mergeable" }, st)
  | none => ({ status := 404, text := "Not Found" }, st)

/-- Fake GitHub endpoint PATCH /issues/n with a closed-state payload. -/
def GH.patchClose (st : GH) (n : Nat) : GH :=
  if st.prs.any (fun pr => pr.number = n) || st.issues.any (fun i => i.number = n) then
    { st with prs := st.prs.map fun p => if p.number = n then { p with state := "closed" } else p,
              issues := st.issues.map fun i => if i.number = n then { i with state := "closed" } else i,
              log := st.log ++ [.closeAct n] }
  else st

/-- `set_pr_state` (lines 195-205): try to merge, close instead when the
merge is refused; a plain "closed" state is patched directly. -/
def set_pr_state (st : GH) (pr_number : Nat) (state : String) : GH :=
  if state = "merged" then
    let m := GH.putMerge st pr_number
    if m.1.status = 200 || m.1.status = 201 then m.2
    else GH.patchClose m.2 pr_number
  else if state = "closed" then GH.patchClose st pr_number
  else st

/-- `ensure_head_and_base` (lines 243-267). -/
def ensure_head_and_base (st : GH) (source_branch target_branch head_sha : String) :
    (String × String × Bool) × GH :=
  let baseA := if target_branch = "" then github_repo_default_branch st else target_branch
  let base :=
    if github_branch_exists st baseA then baseA
    else
      let d := github_repo_default_branch st
      if github_branch_exists st d then d else "main"
  let head := if source_branch = "" then base else source_branch
  if github_branch_exists st head then ((head, base, false), st)
  else if head_sha ≠ "" then
    let cb := create_branch_from_sha st ("import/" ++ head) head_sha
    if cb.1 then (("import/" ++ head, base, true), cb.2)
    else ((base, base, false), cb.2)
  else ((base, base, false), st)

/-- A GitLab merge-request note, as consumed by `get_mr_notes`. -/
structure Note where
  author : String
  body : String
  created_at : String
  system : Bool
deriving DecidableEq

/-- A GitLab merge request, with the fields `import_project_mrs` reads.  The
empty string stands for an absent optional field; `head_sha` is the already
resolved `diff_refs.head_sha or sha` value. -/
structure MR where
  iid : Nat
  title : String
  description : String
  author : String
  source_branch : String
  target_branch : String
  head_sha : String
  state : String
  merged_at : Bool
  created_at : String
  web_url : String
  labels : List String
  milestone : String
  notes : List Note
deriving DecidableEq

/-- The command-line flags of gitlab_pr_to_github.py (lines 362-367). -/
structure Args where
  dry_run : Bool
  include_system_notes : Bool
  issue_when_nodiff : Bool
deriving DecidableEq

/-- The migration marker of line 280. -/
def mkMarker (project_id iid : Nat) : String :=
  "[Imported-from-GitLab: project_id=" ++ toString project_id ++ " iid=" ++ toString iid ++ "]"

/-- The pull-request body built in lines 294-309: the marker followed by the
provenance block and the original description. -/
def mrBody (userMap : List (String × String)) (project_id : Nat) (mr : MR) : String :=
  let author := if mr.author = "" then "unknown" else mr.author
  let mapped_author := map_user userMap (some author)
  String.intercalate "\n"
    [ mkMarker project_id mr.iid,
      "",
      "**Imported from GitLab MR !" ++ toString mr.iid ++ "**",
      "- Original author: `" ++ author ++ "` (mapped to `" ++ mapped_author ++ "`)",
      "- Created at: `" ++ mr.created_at ++ "`",
      "- State on GitLab: `" ++ mr.state ++ "` (merged_at=" ++ toString mr.merged_at ++ ")",
      "- Source → Target: `" ++ (if mr.source_branch = "" then "unknown" else mr.source_branch)
        ++ "` → `" ++ (if mr.target_branch = "" then "unknown" else mr.target_branch) ++ "`",
      "- Head SHA: `" ++ (mr.head_sha.take 12) ++ "`",
      "- Original URL: " ++ mr.web_url,
      "",
      "---",
      "",
      mr.description ]

/-- The note filter of `get_mr_notes` (lines 234-239). -/
def filterNotes (include_system : Bool) (notes : List Note) : List Note :=
  notes.filter fun n => include_system || !n.system

/-- The comment text built for one note (lines 349-354). -/
def noteCommentText (userMap : List (String × String)) (n : Note) : String :=
  "_Imported GitLab note_\n- Author: `" ++ n.author ++ "` (mapped to `"
    ++ map_user userMap (some n.author) ++ "`)\n- Created at: `" ++ n.created_at ++ "`\n\n"
    ++ n.body

/-- The notes-to-comments loop of lines 343-356. -/
def postNotes (userMap : List (String × String)) (st : GH) (pr_number : Nat) :
    List Note → GH
  | [] => st
  | n :: ns =>
    postNotes userMap (add_issue_comment st pr_number (noteCommentText userMap n)) pr_number ns

/-- The per-merge-request body of the `import_project_mrs` loop
(lines 274-359).  An uncaught `requests.HTTPError` is the `.error` case;
`continue` after the no-diff fallback is a normal `.ok` return. -/
def processMR (userMap : List (String × String)) (st : GH) (project_id : Nat)
    (mr : MR) (args : Args) : Except Resp GH :=
  let marker := mkMarker project_id mr.iid
  let title := mr.title
  let state := if mr.merged_at then "merged" else if mr.state = "closed" then "closed" else "open"
  let body := mrBody userMap project_id mr
  if args.dry_run then .ok st
  else
    let er := ensure_head_and_base st mr.source_branch mr.target_branch mr.head_sha
    let head := er.1.1
    let base := er.1.2.1
    let st1 := er.2
    match create_or_get_pr st1 title body head base marker with
    | .error e =>
      if strContains e.text "No commits between"
          || (strContains e.text "Validation Failed"
              && strContains e.text "\"head\",\"code\":\"invalid\"") then
        if args.issue_when_nodiff then
          let ci := create_issue st1 ("[Historical MR] " ++ title) body ["historical-mr"]
          match ci.1 with
          | some _ => .ok { ci.2 with warnings := ci.2.warnings + 1 }
          | none => .ok { ci.2 with errors := ci.2.errors + 1 }
        else .ok { st1 with warnings := st1.warnings + 1 }
      else .error e
    | .ok (pr_number, st2) =>
      let st3 := set_labels_and_milestone st2 pr_number mr.labels mr.milestone
      let st4 := postNotes userMap st3 pr_number (filterNotes args.include_system_notes mr.notes)
      .ok (set_pr_state st4 pr_number state)

/-- A JSON response body as `paginate` (lines 62-79) distinguishes it:
either a list of items or a single (non-list) object. -/
inductive JsonData (α : Type) where
  | list (items : List α)
  | single (x : α)
deriving DecidableEq

/-- What one GET returns to `paginate`: the decoded body plus the parsed
link-header "next" URL (`resp.links.get("next", {}).get("url")`). -/
structure HResp (α : Type) where
  data : JsonData α
  next : Option Nat
deriving DecidableEq

/-- A fake endpoint for `paginate`: either a chain of pages holding the
chunks of a fixed item list, where URL `i` serves chunk `i` and links to URL
`i + 1`, or a single-object endpoint. -/
inductive FakeEndpoint (α : Type) where
  | chunked (chunks : List (List α))
  | single (x : α)
deriving DecidableEq

/-- Serve one request.  The Boolean says whether the client sent its initial
query parameters along.  A next-URL already encodes the query string, so the
fake chunked endpoint answers a request that re-adds the initial parameters
to a next-URL (any URL after the first) with a wrong page: `paginate` only
reproduces the item set because it discards the parameters once a next-URL
is provided (line 79, `params = None`). -/
def fetchPage {α : Type} : FakeEndpoint α → Nat → Bool → HResp α
  | .single x, _, _ => { data := .single x, next := none }
  | .chunked chunks, i, withParams =>
    if withParams && i ≠ 0 then { data := .list [], next := none }
    else { data := .list (chunks.getD i []),
           next := if i + 1 < chunks.length then some (i + 1) else none }

theorem fetchPage_next_some {α : Type} (chunks : List (List α)) (i : Nat) (p : Bool) (u : Nat)
    (h : (fetchPage (.chunked chunks) i p).next = some u) :
    u = i + 1 ∧ i + 1 < chunks.length := by
  simp only [fetchPage] at h
  split at h
  · simp at h
  · simp only at h
    split at h
    · simp_all
    · simp at h

/-- `paginate` (gitlab_pr_to_github.py lines 62-79, identical in
export_gitlab_audit.py lines 70-88): GET the URL; a list body yields its
items and the walk follows the "next" link with `params = None`; a
non-list body is yielded once and the walk stops. -/
def paginate {α : Type} (e : FakeEndpoint α) (url : Nat) (withParams : Bool) : List α :=
  match (fetchPage e url withParams).data with
  | .single x => [x]
  | .list items =>
    match h : (fetchPage e url withParams).next with
    | none => items
    | some u => items ++ paginate e u false
termination_by (match e with | .single _ => 0 | .chunked chunks => chunks.length - url)
decreasing_by
  cases e with
  | single x => simp [fetchPage] at h
  | chunked chunks =>
    obtain ⟨rfl, hlt⟩ := fetchPage_next_some chunks url withParams _ h
    simp only
    omega

end GitlabPrToGithub

namespace MigrateRepoWithLfs

open Migration GitlabPrToGithub

/-- `paginate` (migrate_repo_with_lfs.py lines 142-158): request pages of
`per_page = 100` items, stop on an empty page or on a short page, collecting
everything into one list.  The fake endpoint serves pages of a fixed item
list `xs`; `skipped` counts the items of the pages already fetched, so page
`p` of the Python loop is `(xs.drop ((p - 1) * 100)).take 100`. -/
def paginate {α : Type} (xs : List α) (skipped : Nat) : List α :=
  if h1 : ((xs.drop skipped).take 100).isEmpty then []
  else if h2 : ((xs.drop skipped).take 100).length < 100 then (xs.drop skipped).take 100
  else ((xs.drop skipped).take 100) ++ paginate xs (skipped + 100)
termination_by xs.length - skipped
decreasing_by
  have h3 := List.length_take 100 (xs.drop skipped)
  have h4 := List.length_drop skipped xs
  omega

/-- A GitLab issue with the fields `migrate_issues_gitlab_to_github` reads;
the empty string stands for an absent assignee. -/
structure GLIssue where
  iid : Nat
  title : String
  description : String
  labels : List String
  state : String
  assignee : String
  notes : List Note
deriving DecidableEq

/-- The destination body of a migrated issue (line 212). -/
def lfsIssueBody (issue : GLIssue) : String :=
  issue.description ++ "\n\n_Imported from GitLab issue #" ++ toString issue.iid ++ "_"

/-- The destination body of one migrated comment (lines 228-231); the
`if mapped` truthiness falls back to the GitLab-user form for an empty
mapping value. -/
def lfsNoteBody (user_map : Option (List (String × String))) (note : Note) : String :=
  let mapped := match user_map with
    | some m => m.lookup note.author
    | none => none
  let author_str := match mapped with
    | some m => if m = "" then "(GitLab user: " ++ note.author ++ ")" else "@" ++ m
    | none => "(GitLab user: " ++ note.author ++ ")"
  note.body ++ "\n\n_Imported comment by " ++ author_str ++ "_"

/-- The comments loop of lines 222-234, skipping system notes. -/
def lfsPostComments (user_map : Option (List (String × String))) (st : GH) (number : Nat) :
    List Note → GH
  | [] => st
  | note :: ns =>
    if note.system then lfsPostComments user_map st number ns
    else lfsPostComments user_map (GH.postComment st number (lfsNoteBody user_map note)) number ns

/-- The per-issue body of the `migrate_issues_gitlab_to_github` loop
(lines 198-240): create the destination issue unconditionally, replay the
comments, and close it last when the source issue is closed.  Returns the
created issue number together with the new state. -/
def migrate_one_issue (user_map : Option (List (String × String))) (st : GH)
    (issue : GLIssue) : Nat × GH :=
  let assignee : Option String :=
    if issue.assignee ≠ "" then
      match user_map with
      | some m => m.lookup issue.assignee
      | none => none
    else none
  let assignees := match assignee with
    | some a => if a = "" then [] else [a]
    | none => []
  let pi := GH.postIssue st issue.title (lfsIssueBody issue) issue.labels assignees
  let st2 := lfsPostComments user_map pi.2.2 pi.2.1 issue.notes
  if issue.state = "closed" then (pi.2.1, GH.patchClose st2 pi.2.1) else (pi.2.1, st2)

end MigrateRepoWithLfs

namespace MigrateBdsf

open Migration

/-- The destination organisation state seen by
migrate_bdsf_gitlab_to_csn_github.py: the repositories that exist, plus the
client's warning counter. -/
structure OrgState where
  repos : List String
  warnings : Nat
deriving DecidableEq

/-- Fake GitHub endpoint POST /orgs/org/repos: 422 when the repository name
is taken, otherwise 201. -/
def OrgState.postRepo (st : OrgState) (name : String) : Resp × OrgState :=
  if st.repos.contains name then
    ({ status := 422, text := "Repository creation failed: name already exists on this account" }, st)
  else
    ({ status := 201, text := "" }, { st with repos := st.repos ++ [name] })

/-- `create_github_repo` (migrate_bdsf_gitlab_to_csn_github.py lines 55-73):
a 422 response is logged as a warning and reported as success (`return
True`); any other non-2xx raises (`.error`). -/
def create_github_repo (st : OrgState) (repo_name : String) : Except Resp OrgState :=
  let (r, st1) := OrgState.postRepo st repo_name
  if r.status = 422 then .ok { st with warnings := st.warnings + 1 }
  else if 400 ≤ r.status then .error r
  else .ok st1

/-- The repository-name flattening of `migrate_repo` (line 76):
`repo['full_path'].replace('/', '__')`, the same mapping as
`flatten_repo_name`. -/
def bdsfFlatten (full_path : String) : String :=
  String.mk (full_path.toList.flatMap fun c => if c = '/' then ['_', '_'] else [c])

end MigrateBdsf

namespace ExportAudit

/-- The configuration export_gitlab_audit.py reads from the environment
(lines 50-52); `none` models an unset variable. -/
structure Config where
  api_url : Option String
  token : Option String
  group_id : Option String
deriving DecidableEq

/-- The observable phases of an export_gitlab_audit.py run that the claim
about configuration errors distinguishes. -/
inductive Ev where
  | warnMissingEnv
  | createOutputFiles
  | networkCall
  | crash
  | finished
deriving DecidableEq

/-- The `all([GITLAB_API_URL, GITLAB_TOKEN, GITLAB_TOP_GROUP_ID])` check of
line 54; `None` and the empty string are both falsy. -/
def configOk (c : Config) : Bool :=
  [c.api_url, c.token, c.group_id].all fun v =>
    match v with
    | none => false
    | some s => s ≠ ""

/-- Python `int(...)` over a decimal string: `none` when it raises. -/
def parseIntString (s : String) : Option Nat :=
  let cs := s.toList
  if cs ≠ [] ∧ cs.all Char.isDigit then
    some (cs.foldl (fun acc c => acc * 10 + (c.toNat - 48)) 0)
  else none

/-- The startup and main-flow event trace of export_gitlab_audit.py
(lines 54-55 and 202-231): a failed configuration check only prints a
warning to stderr and execution continues; `main` then creates the output
CSV files, converts `GITLAB_TOP_GROUP_ID` with `int(...)` (crashing on
`None` or a non-numeric string), and finally performs the first network
request of the project discovery. -/
def audit_run (c : Config) : List Ev :=
  (if configOk c then [] else [Ev.warnMissingEnv])
    ++ [Ev.createOutputFiles]
    ++ (match c.group_id with
        | none => [Ev.crash]
        | some gid =>
          match parseIntString gid with
          | none => [Ev.crash]
          | some _ => [Ev.networkCall, Ev.finished])

end ExportAudit

namespace Orchestrator

/-- The per-project loop of `main` (gitlab_pr_to_github.py lines 375-381,
likewise migrate_bdsf_gitlab_to_csn_github.py lines 96-101): each item is
processed inside a try/except, a failure is logged together with the item
and the loop proceeds to the next item.  The returned list is the run's
report: one entry per item, `true` for processed, `false` for failed. -/
def mainLoop {α ε : Type} (process : α → Except ε Unit) : List α → List (α × Bool)
  | [] => []
  | p :: ps => (p, (process p).isOk) :: mainLoop process ps

/-- A processing function that fails exactly on record 3, as in the
batch-resilience scenario. -/
def failOnThree (n : Nat) : Except Unit Unit :=
  if n = 3 then .error () else .ok ()

end Orchestrator

/-! ### Helper lemmas -/

theorem lookup_append {α β : Type} [BEq α] (l₁ l₂ : List (α × β)) (a : α) :
    (l₁ ++ l₂).lookup a = ((l₁.lookup a).or (l₂.lookup a)) := by
  induction l₁ with
  | nil => simp [List.lookup]
  | cons p ps ih =>
    by_cases hb : a == p.1
    · simp [List.lookup, hb]
    · simp [List.lookup, hb, ih]

theorem strContains_append_left (s t sub : String) (h : strContains s sub = true) :
    strContains (s ++ t) sub = true := by
  simp only [strContains, List.any_eq_true, List.mem_range] at h ⊢
  obtain ⟨i, hi, hpre⟩ := h
  have hlist : (s ++ t).toList = s.toList ++ t.toList := by
    simp [String.toList, String.data_append]
  have hle : i ≤ s.toList.length := by omega
  refine ⟨i, ?_, ?_⟩
  · rw [hlist, List.length_append]
    omega
  · rw [hlist, List.isPrefixOf_iff_prefix, List.drop_append_of_le_length hle]
    rw [List.isPrefixOf_iff_prefix] at hpre
    exact hpre.trans (List.prefix_append _ _)

namespace GitlabPrToGithub

theorem findPRPageLoop_eq_find (marker : String) (prs : List PR) :
    findPRPageLoop marker prs
      = (prs.find? fun pr => strContains pr.body marker).map (fun pr => pr.number) := by
  induction prs using findPRPageLoop.induct marker with
  | case1 prs h =>
    have : prs = [] := by
      simpa [List.isEmpty_iff, List.take_eq_nil_iff] using h
    subst this
    simp [findPRPageLoop]
  | case2 prs h pr hfind =>
    rw [findPRPageLoop, dif_neg h, hfind]
    conv_rhs => rw [← List.take_append_drop 100 prs]
    rw [List.find?_append, hfind]
    rfl
  | case3 prs h hfind ih =>
    rw [findPRPageLoop, dif_neg h, hfind]
    conv_rhs => rw [← List.take_append_drop 100 prs]
    rw [List.find?_append, hfind]
    simpa using ih

theorem fetchPage_chunked_noParams {α : Type} (chunks : List (List α)) (i : Nat) :
    fetchPage (.chunked chunks) i false
      = { data := .list (chunks.getD i []),
          next := if i + 1 < chunks.length then some (i + 1) else none } := by
  simp [fetchPage]

theorem paginate_chunked_eq {α : Type} (chunks : List (List α)) (i : Nat) :
    paginate (.chunked chunks) i false = (chunks.drop i).flatten := by
  generalize hk : chunks.length - i = k
  induction k generalizing i with
  | zero =>
    have hge : chunks.length ≤ i := by omega
    rw [paginate]
    rw [fetchPage_chunked_noParams, if_neg (by omega)]
    simp [List.getD, List.getElem?_eq_none hge, List.drop_eq_nil_of_le hge]
  | succ k ih =>
    have hlt : i < chunks.length := by omega
    rw [paginate]
    by_cases hnext : i + 1 < chunks.length
    · rw [fetchPage_chunked_noParams, if_pos hnext]
      simp only
      rw [ih (i + 1) (by omega)]
      rw [List.drop_eq_getElem_cons hlt, List.flatten_cons, List.getD_eq_getElem _ _ hlt]
    · rw [fetchPage_chunked_noParams, if_neg hnext]
      simp only
      rw [List.drop_eq_getElem_cons hlt, List.getD_eq_getElem _ _ hlt]
      have hrest : chunks.drop (i + 1) = [] := List.drop_eq_nil_of_le (by omega)
      simp [hrest]

theorem paginate_chunked_entry {α : Type} (chunks : List (List α)) (p : Bool) :
    paginate (.chunked chunks) 0 p = chunks.flatten := by
  have hfetch : fetchPage (.chunked chunks) 0 p
      = { data := .list (chunks.getD 0 []),
          next := if 0 + 1 < chunks.length then some (0 + 1) else none } := by
    simp [fetchPage]
  rw [paginate]
  by_cases hnext : 0 + 1 < chunks.length
  · rw [hfetch, if_pos hnext]
    simp only
    rw [paginate_chunked_eq]
    cases chunks with
    | nil => simp at hnext
    | cons c cs => simp
  · rw [hfetch, if_neg hnext]
    simp only
    have hlen : chunks.length ≤ 1 := by omega
    cases chunks with
    | nil => simp
    | cons c cs =>
      have hcs : cs = [] := by
        simp only [List.length_cons] at hlen
        exact List.length_eq_zero.mp (by omega)
      subst hcs
      simp

theorem paginate_single_eq {α : Type} (x : α) (u : Nat) (p : Bool) :
    paginate (.single x) u p = [x] := by
  rw [paginate]
  simp [fetchPage]

end GitlabPrToGithub

namespace MigrateRepoWithLfs

theorem lfs_paginate_eq_drop {α : Type} (xs : List α) (skipped : Nat) :
    paginate xs skipped = xs.drop skipped := by
  induction skipped using paginate.induct xs with
  | case1 skipped h1 =>
    rw [paginate, dif_pos h1]
    have hnil : xs.drop skipped = [] := by
      simpa [List.isEmpty_iff, List.take_eq_nil_iff] using h1
    rw [hnil]
  | case2 skipped h1 h2 =>
    rw [paginate, dif_neg h1, dif_pos h2]
    have htlen : ((xs.drop skipped).take 100).length = min 100 (xs.drop skipped).length :=
      List.length_take _ _
    exact List.take_of_length_le (by omega)
  | case3 skipped h1 h2 ih =>
    rw [paginate, dif_neg h1, dif_neg h2]
    rw [ih]
    have hdd : xs.drop (skipped + 100) = (xs.drop skipped).drop 100 := by
      rw [List.drop_drop]
    rw [hdd, List.take_append_drop]

end MigrateRepoWithLfs

/-! ### Ordering of destination mutations (content before terminal state) -/

/-- Every action of the list is a content action, not a terminal state
transition. -/
def allNonTerminal (t : List Act) : Prop := ∀ a ∈ t, a.isTerminal = false

/-- A terminal state transition may appear only as the very last action:
every action before the last one is non-terminal. -/
def TerminalLast (t : List Act) : Prop := ∀ a ∈ t.dropLast, a.isTerminal = false

/-- The state `st'` extends the log of `st` by non-terminal actions only. -/
def logNT (st st' : GH) : Prop :=
  ∃ t, st'.log = st.log ++ t ∧ allNonTerminal t

theorem logNT_refl (st : GH) : logNT st st := ⟨[], by simp, by simp [allNonTerminal]⟩

theorem logNT_of_append (st : GH) (t : List Act) (hnt : allNonTerminal t) (st' : GH)
    (h : st'.log = st.log ++ t) : logNT st st' := ⟨t, h, hnt⟩

theorem logNT_trans {st1 st2 st3 : GH} (h12 : logNT st1 st2) (h23 : logNT st2 st3) :
    logNT st1 st3 := by
  obtain ⟨t1, he1, hn1⟩ := h12
  obtain ⟨t2, he2, hn2⟩ := h23
  refine ⟨t1 ++ t2, by rw [he2, he1, List.append_assoc], ?_⟩
  intro a ha
  rcases List.mem_append.mp ha with h | h
  · exact hn1 a h
  · exact hn2 a h

theorem TerminalLast_of_allNonTerminal {t : List Act} (h : allNonTerminal t) :
    TerminalLast t := by
  intro a ha
  exact h a ((List.dropLast_sublist t).mem ha)

theorem TerminalLast_append {t1 t2 : List Act} (h1 : allNonTerminal t1)
    (h2 : TerminalLast t2) : TerminalLast (t1 ++ t2) := by
  cases t2 with
  | nil =>
    simpa using TerminalLast_of_allNonTerminal h1
  | cons b bs =>
    intro a ha
    rw [List.dropLast_append_cons] at ha
    rcases List.mem_append.mp ha with h | h
    · exact h1 a h
    · exact h2 a h

/-- Combine a non-terminal extension with a terminal-last suffix. -/
theorem TerminalLast_comp {st1 st2 st3 : GH} (h12 : logNT st1 st2)
    (h23 : ∃ t, st3.log = st2.log ++ t ∧ TerminalLast t) :
    ∃ t, st3.log = st1.log ++ t ∧ TerminalLast t := by
  obtain ⟨t1, he1, hn1⟩ := h12
  obtain ⟨t2, he2, hl2⟩ := h23
  exact ⟨t1 ++ t2, by rw [he2, he1, List.append_assoc], TerminalLast_append hn1 hl2⟩

namespace GitlabPrToGithub

theorem logNT_postRef (st : GH) (b s : String) : logNT st (GH.postRef st b s).2 := by
  unfold GH.postRef
  split
  · exact logNT_refl st
  · exact logNT_of_append st [.createRefAct b s] (by simp [allNonTerminal, Act.isTerminal]) _ rfl

theorem logNT_create_branch_from_sha (st : GH) (b s : String) :
    logNT st (create_branch_from_sha st b s).2 := by
  unfold create_branch_from_sha
  dsimp only
  have h := logNT_postRef st b s
  split
  · exact logNT_refl st
  · split
    · exact logNT_refl st
    · split
      · exact h
      · split
        · exact h
        · obtain ⟨t, he, hn⟩ := h
          exact ⟨t, by simpa using he, hn⟩

theorem logNT_postLabel (st : GH) (name : String) : logNT st (GH.postLabel st name).2 := by
  unfold GH.postLabel
  split
  · exact logNT_refl st
  · exact logNT_of_append st [.createLabelAct name] (by simp [allNonTerminal, Act.isTerminal]) _ rfl

theorem logNT_ensure_labels (st : GH) (ls : List String) : logNT st (ensure_labels st ls) := by
  induction ls generalizing st with
  | nil => exact logNT_refl st
  | cons l ls ih =>
    rw [ensure_labels]
    dsimp only
    have h1 := logNT_postLabel st l
    split
    · exact logNT_trans h1 (ih _)
    · refine logNT_trans ?_ (ih _)
      obtain ⟨t, he, hn⟩ := h1
      exact ⟨t, by simpa using he, hn⟩

theorem logNT_postMilestone (st : GH) (title : String) :
    logNT st (GH.postMilestone st title).2 := by
  unfold GH.postMilestone
  split
  · exact logNT_refl st
  · exact logNT_of_append st [.createMilestoneAct title]
      (by simp [allNonTerminal, Act.isTerminal]) _ rfl

theorem logNT_ensure_milestone (st : GH) (title : String) :
    logNT st (ensure_milestone st title).2 := by
  unfold ensure_milestone
  dsimp only
  have h := logNT_postMilestone st title
  split
  · exact logNT_refl st
  · split
    · exact logNT_refl st
    · split
      · exact h
      · obtain ⟨t, he, hn⟩ := h
        exact ⟨t, by simpa using he, hn⟩

theorem logNT_patchIssueLabels (st : GH) (n : Nat) (ls : List String) :
    logNT st (GH.patchIssueLabels st n ls) :=
  logNT_of_append st [.patchLabelsAct n] (by simp [allNonTerminal, Act.isTerminal]) _ rfl

theorem logNT_patchIssueMilestone (st : GH) (n m : Nat) :
    logNT st (GH.patchIssueMilestone st n m) :=
  logNT_of_append st [.patchMilestoneAct n] (by simp [allNonTerminal, Act.isTerminal]) _ rfl

theorem logNT_set_labels_and_milestone (st : GH) (n : Nat) (ls : List String) (mt : String) :
    logNT st (set_labels_and_milestone st n ls mt) := by
  unfold set_labels_and_milestone
  dsimp only
  have hbase : logNT st (if ls ≠ [] then GH.patchIssueLabels (ensure_labels st ls) n ls else st) := by
    split
    · exact logNT_trans (logNT_ensure_labels st ls) (logNT_patchIssueLabels _ n ls)
    · exact logNT_refl st
  generalize hA : (if ls ≠ [] then GH.patchIssueLabels (ensure_labels st ls) n ls else st) = stA at hbase ⊢
  split
  · refine logNT_trans hbase ?_
    have h := logNT_ensure_milestone stA mt
    split
    · split
      · exact logNT_trans h (logNT_patchIssueMilestone _ n _)
      · exact h
    · exact h
  · exact hbase

theorem logNT_postComment (st : GH) (n : Nat) (body : String) :
    logNT st (GH.postComment st n body) :=
  logNT_of_append st [.addCommentAct n] (by simp [allNonTerminal, Act.isTerminal]) _ rfl

theorem logNT_postNotes (umap : List (String × String)) (st : GH) (n : Nat) (ns : List Note) :
    logNT st (postNotes umap st n ns) := by
  induction ns generalizing st with
  | nil => exact logNT_refl st
  | cons note ns ih =>
    rw [postNotes]
    exact logNT_trans (logNT_postComment st n _) (ih _)

theorem logNT_postIssue (st : GH) (title body : String) (ls asg : List String) :
    logNT st (GH.postIssue st title body ls asg).2.2 :=
  logNT_of_append st [.createIssueAct st.nextNumber]
    (by simp [allNonTerminal, Act.isTerminal]) _ rfl

theorem logNT_create_issue (st : GH) (title body : String) (ls : List String) :
    logNT st (create_issue st title body ls).2 := by
  unfold create_issue
  dsimp only
  have h := logNT_postIssue st title body ls []
  split
  · exact h
  · obtain ⟨t, he, hn⟩ := h
    exact ⟨t, by simpa using he, hn⟩

theorem logNT_ensure_head_and_base (st : GH) (sb tb sha : String) :
    logNT st (ensure_head_and_base st sb tb sha).2 := by
  unfold ensure_head_and_base
  dsimp only
  repeat' split
  all_goals first
    | exact logNT_refl st
    | exact logNT_create_branch_from_sha st _ _

theorem logNT_postPR (st : GH) (title body head base : String) (n : Nat) (st' : GH)
    (h : GH.postPR st title body head base = .ok (n, st')) : logNT st st' := by
  unfold GH.postPR at h
  split at h
  · exact absurd h (by simp)
  · split at h
    · exact absurd h (by simp)
    · simp only [Except.ok.injEq, Prod.mk.injEq] at h
      obtain ⟨-, h2⟩ := h
      exact logNT_of_append st [.createPRAct st.nextNumber]
        (by simp [allNonTerminal, Act.isTerminal]) _ (by rw [← h2])

theorem logNT_create_or_get_pr (st : GH) (title body head base marker : String)
    (n : Nat) (st' : GH)
    (h : create_or_get_pr st title body head base marker = .ok (n, st')) : logNT st st' := by
  unfold create_or_get_pr at h
  split at h
  · split at h
    · exact logNT_postPR st title body head base n st' h
    · simp only [Except.ok.injEq, Prod.mk.injEq] at h
      obtain ⟨-, h2⟩ := h
      rw [← h2]
      exact logNT_refl st
  · exact logNT_postPR st title body head base n st' h

theorem patchClose_terminalLast (st : GH) (n : Nat) :
    ∃ t, (GH.patchClose st n).log = st.log ++ t ∧ TerminalLast t := by
  unfold GH.patchClose
  split
  · exact ⟨[.closeAct n], rfl, by simp [TerminalLast]⟩
  · exact ⟨[], by simp, by simp [TerminalLast]⟩

theorem putMerge_cases (st : GH) (n : Nat) :
    ((GH.putMerge st n).1.status = 200 ∧ (GH.putMerge st n).2.log = st.log ++ [Act.mergeAct n])
    ∨ ((GH.putMerge st n).1.status ≠ 200 ∧ (GH.putMerge st n).1.status ≠ 201
        ∧ (GH.putMerge st n).2 = st) := by
  unfold GH.putMerge
  split
  · split
    · left
      exact ⟨rfl, rfl⟩
    · right
      exact ⟨by simp, by simp, rfl⟩
  · right
    exact ⟨by simp, by simp, rfl⟩

theorem set_pr_state_terminalLast (st : GH) (n : Nat) (s : String) :
    ∃ t, (set_pr_state st n s).log = st.log ++ t ∧ TerminalLast t := by
  unfold set_pr_state
  dsimp only
  split
  · split
    · rcases putMerge_cases st n with ⟨h200, hlog⟩ | ⟨h1, h2, hst⟩
      · exact ⟨[Act.mergeAct n], hlog, by simp [TerminalLast]⟩
      · rw [hst]
        exact ⟨[], by simp, by simp [TerminalLast]⟩
    · rcases putMerge_cases st n with ⟨h200, hlog⟩ | ⟨h1, h2, hst⟩
      · rename_i hcond
        exact absurd (by simp [h200]) hcond
      · rw [hst]
        exact patchClose_terminalLast st n
  · split
    · exact patchClose_terminalLast st n
    · exact ⟨[], by simp, by simp [TerminalLast]⟩

theorem processMR_terminalLast (umap : List (String × String)) (st : GH) (pid : Nat)
    (mr : MR) (args : Args) (st' : GH) (h : processMR umap st pid mr args = .ok st') :
    ∃ t, st'.log = st.log ++ t ∧ TerminalLast t := by
  unfold processMR at h
  dsimp only at h
  have hens := logNT_ensure_head_and_base st mr.source_branch mr.target_branch mr.head_sha
  split at h
  · simp only [Except.ok.injEq] at h
    subst h
    exact ⟨[], by simp, by simp [TerminalLast]⟩
  · split at h
    next e heq =>
      split at h
      · split at h
        · have hci := logNT_create_issue (ensure_head_and_base st mr.source_branch
            mr.target_branch mr.head_sha).2 ("[Historical MR] " ++ mr.title)
            (mrBody umap pid mr) ["historical-mr"]
          split at h
          all_goals
            simp only [Except.ok.injEq] at h
            subst h
            obtain ⟨t, he, hn⟩ := logNT_trans hens hci
            exact ⟨t, by simpa using he, TerminalLast_of_allNonTerminal hn⟩
        · simp only [Except.ok.injEq] at h
          subst h
          obtain ⟨t, he, hn⟩ := hens
          exact ⟨t, by simpa using he, TerminalLast_of_allNonTerminal hn⟩
      · exact absurd h (by simp)
    next pr_number st2 heq =>
      simp only [Except.ok.injEq] at h
      subst h
      have h2 : logNT (ensure_head_and_base st mr.source_branch mr.target_branch mr.head_sha).2 st2 :=
        logNT_create_or_get_pr _ _ _ _ _ _ _ _ heq
      have h3 := logNT_set_labels_and_milestone st2 pr_number mr.labels mr.milestone
      have h4 := logNT_postNotes umap (set_labels_and_milestone st2 pr_number mr.labels mr.milestone)
        pr_number (filterNotes args.include_system_notes mr.notes)
      exact TerminalLast_comp (logNT_trans (logNT_trans (logNT_trans hens h2) h3) h4)
        (set_pr_state_terminalLast _ pr_number _)

end GitlabPrToGithub

namespace MigrateRepoWithLfs

open GitlabPrToGithub

theorem logNT_lfsPostComments (um : Option (List (String × String))) (st : GH) (n : Nat)
    (ns : List Note) : logNT st (lfsPostComments um st n ns) := by
  induction ns generalizing st with
  | nil => exact logNT_refl st
  | cons note ns ih =>
    rw [lfsPostComments]
    split
    · exact ih st
    · exact logNT_trans (logNT_postComment st n _) (ih _)

theorem migrate_one_issue_terminalLast (um : Option (List (String × String))) (st : GH)
    (issue : GLIssue) :
    ∃ t, (migrate_one_issue um st issue).2.log = st.log ++ t ∧ TerminalLast t := by
  unfold migrate_one_issue
  dsimp only
  have h1 := logNT_postIssue st issue.title (lfsIssueBody issue) issue.labels
  have h2 := fun asg => logNT_lfsPostComments um
    (GH.postIssue st issue.title (lfsIssueBody issue) issue.labels asg).2.2
    (GH.postIssue st issue.title (lfsIssueBody issue) issue.labels asg).2.1 issue.notes
  split
  · exact TerminalLast_comp (logNT_trans (h1 _) (h2 _))
      (patchClose_terminalLast _ _)
  · obtain ⟨t, he, hn⟩ := logNT_trans (h1 _) (h2 _)
    exact ⟨t, he, TerminalLast_of_allNonTerminal hn⟩

end MigrateRepoWithLfs

/-! ### Claim theorems -/

open GitlabPrToGithub in
/-- Claim C1 counterexample: the claim fails for the issues-migration path of
migrate_repo_with_lfs.py, which the claim also cites as an implementation of
the upsert engine.  `migrate_issues_gitlab_to_github` performs no marker
search before creating: invoking it twice with the same source issue creates
two destination issues, and the second invocation returns a different
identifier than the first. -/
theorem lfs_issue_upsert_not_idempotent :
    (let st0 : GH := ⟨[], [], "main", [], [], [], [], [], 1, [], 0, 0⟩
     let issue : MigrateRepoWithLfs.GLIssue := ⟨5, "t", "d", [], "opened", "", []⟩
     let r1 := MigrateRepoWithLfs.migrate_one_issue none st0 issue
     let r2 := MigrateRepoWithLfs.migrate_one_issue none r1.2 issue
     r1.1 = 1 ∧ r2.1 = 2 ∧ r2.2.issues.length = 2 ∧ r1.1 ≠ r2.1) := by
  decide

open GitlabPrToGithub in
/-- Claim C1 (amended to the PR importer's upsert path `create_or_get_pr`):
if a pull request whose body contains the marker is found, its number is
returned and no new object is created; starting from a state with no
marker-carrying pull request, a successful creation leaves exactly one pull
request whose body contains the marker, and a second invocation returns the
same identifier with no further mutation. -/
theorem create_or_get_pr_idempotent
    (st : GH) (title body head base marker : String)
    (hmark : strContains body marker = true)
    (hnext : 0 < st.nextNumber) :
    (∀ n, find_existing_pr_by_marker st marker = some n → 0 < n →
        create_or_get_pr st title body head base marker = .ok (n, st))
    ∧
    (find_existing_pr_by_marker st marker = none →
      ∀ n1 st1, create_or_get_pr st title body head base marker = .ok (n1, st1) →
        st1.prs.countP (fun pr => strContains pr.body marker) = 1
        ∧ create_or_get_pr st1 title body head base marker = .ok (n1, st1)) := by
  constructor
  · intro n hfind hpos
    unfold create_or_get_pr
    rw [hfind]
    dsimp only
    rw [if_neg (by omega)]
  · intro hnone n1 st1 hok
    unfold create_or_get_pr at hok
    rw [hnone] at hok
    dsimp only at hok
    unfold GH.postPR at hok
    split at hok
    · exact absurd hok (by simp)
    · split at hok
      · exact absurd hok (by simp)
      · simp only [Except.ok.injEq, Prod.mk.injEq] at hok
        obtain ⟨hn1, hst1⟩ := hok
        have hfind0 : st.prs.find? (fun pr => strContains pr.body marker) = none := by
          have heq := findPRPageLoop_eq_find marker st.prs
          rw [find_existing_pr_by_marker] at hnone
          rw [hnone] at heq
          exact (Option.map_eq_none.mp heq.symm)
        have hcount0 : st.prs.countP (fun pr => strContains pr.body marker) = 0 := by
          refine List.countP_eq_zero.mpr ?_
          intro a ha
          exact List.find?_eq_none.mp hfind0 a ha
        have hfind1 : find_existing_pr_by_marker st1 marker = some st.nextNumber := by
          rw [find_existing_pr_by_marker, findPRPageLoop_eq_find, ← hst1]
          dsimp only
          rw [List.find?_append, hfind0]
          simp [hmark]
        refine ⟨?_, ?_⟩
        · rw [← hst1]
          dsimp only
          rw [List.countP_append, hcount0]
          simp [hmark]
        · unfold create_or_get_pr
          rw [hfind1]
          dsimp only
          rw [if_neg (by omega), hn1]

open GitlabPrToGithub in
/-- Claim C1 witness: a concrete state holding pull request number 7 whose
body carries the marker; `create_or_get_pr` returns 7 and leaves the state
unchanged. -/
theorem create_or_get_pr_idempotent_witness :
    (let st : GH :=
      ⟨[("main", "aaa"), ("feature", "bbb")], ["aaa", "bbb"], "main",
       [⟨7, "t", "[Imported-from-GitLab: project_id=1 iid=2] old", "feature", "main", "open", [], none⟩],
       [], [], [], [], 8, [], 0, 0⟩
     create_or_get_pr st "t2" "[Imported-from-GitLab: project_id=1 iid=2] new" "feature" "main"
       "[Imported-from-GitLab: project_id=1 iid=2]" = .ok (7, st)) := by
  exact (create_or_get_pr_idempotent _ "t2" "[Imported-from-GitLab: project_id=1 iid=2] new"
      "feature" "main" "[Imported-from-GitLab: project_id=1 iid=2]" (by decide) (by decide)).1 7
    (by simp only [find_existing_pr_by_marker, findPRPageLoop_eq_find]; decide) (by decide)

open GitlabPrToGithub MigrateRepoWithLfs in
/-- Claim C2: under each of the three pagination styles, concatenating the
items yielded by `paginate` reproduces the fake endpoint's full item set
exactly once: the page-number style of migrate_repo_with_lfs.py returns the
whole backing list, the link-header style returns the concatenation of all
chunks of the chained endpoint (which only answers correctly because the
initial query parameters are discarded once a next-URL is provided), and a
single-object endpoint yields exactly one item and terminates. -/
theorem paginate_reproduces_item_set {α : Type} (xs : List α) (chunks : List (List α)) (x : α) :
    MigrateRepoWithLfs.paginate xs 0 = xs
    ∧ GitlabPrToGithub.paginate (.chunked chunks) 0 true = chunks.flatten
    ∧ GitlabPrToGithub.paginate (.single x) 0 true = [x] := by
  refine ⟨?_, ?_, ?_⟩
  · rw [lfs_paginate_eq_drop]
    simp
  · exact paginate_chunked_entry chunks true
  · exact paginate_single_eq x 0 true

open Orchestrator in
/-- Claim C5: the per-item try/except loop of `main` processes every item of
the batch and reports each item with its own outcome, so one failure neither
aborts the batch nor hides later items; in the concrete ten-record scenario
with a forced failure on record 3, the report marks record 3 failed and
records 1, 2 and 4 through 10 processed. -/
theorem batch_resilience {α ε : Type} (process : α → Except ε Unit) (items : List α) :
    mainLoop process items = items.map (fun a => (a, (process a).isOk))
    ∧ mainLoop failOnThree (List.range' 1 10)
      = [(1, true), (2, true), (3, false), (4, true), (5, true),
         (6, true), (7, true), (8, true), (9, true), (10, true)] := by
  refine ⟨?_, by decide⟩
  induction items with
  | nil => rfl
  | cons a as ih => simp [mainLoop, ih]

open GitlabPrToGithub in
/-- Claim C7: `map_user` returns the sentinel "unknown" for an absent or
empty source identity, passes an unmapped identity through unchanged, and
returns the table's destination value for a mapped identity. -/
theorem map_user_policy (m : List (String × String)) (u v : String) :
    map_user m none = "unknown"
    ∧ map_user m (some "") = "unknown"
    ∧ (u ≠ "" → m.lookup u = none → map_user m (some u) = u)
    ∧ (u ≠ "" → m.lookup u = some v → map_user m (some u) = v) := by
  refine ⟨rfl, rfl, ?_, ?_⟩
  · intro hu hl
    simp [map_user, hu, hl]
  · intro hu hl
    simp [map_user, hu, hl]

open GitlabPrToGithub in
/-- Claim C7 witness: the three concrete cases of the identity-mapper
contract, with the table containing alice. -/
theorem map_user_policy_witness :
    map_user [("alice", "alice_gh")] none = "unknown"
    ∧ map_user [("alice", "alice_gh")] (some "") = "unknown"
    ∧ map_user [("alice", "alice_gh")] (some "bob") = "bob"
    ∧ map_user [("alice", "alice_gh")] (some "alice") = "alice_gh" := by
  refine ⟨(map_user_policy [("alice", "alice_gh")] "bob" "x").1,
    (map_user_policy [("alice", "alice_gh")] "bob" "x").2.1,
    (map_user_policy [("alice", "alice_gh")] "bob" "x").2.2.1 (by decide) (by decide),
    (map_user_policy [("alice", "alice_gh")] "alice" "alice_gh").2.2.2 (by decide) (by decide)⟩

open ExportAudit in
/-- Claim C8: export_gitlab_audit.py does not make a missing-configuration
error fatal at startup.  With GITLAB_TOKEN unset and the other variables
set, the configuration check fails, yet the run only prints a warning,
creates the output files and proceeds to network activity. -/
theorem audit_config_check_not_fatal :
    configOk ⟨some "https://gitlab.example.com/api/v4", none, some "1234"⟩ = false
    ∧ audit_run ⟨some "https://gitlab.example.com/api/v4", none, some "1234"⟩
      = [Ev.warnMissingEnv, Ev.createOutputFiles, Ev.networkCall, Ev.finished]
    ∧ Ev.networkCall ∈ audit_run ⟨some "https://gitlab.example.com/api/v4", none, some "1234"⟩ := by
  decide

open GitlabPrToGithub in
/-- Claim C3: branch resolution for a pull request's head/base pair.  With
the head branch missing: if a source commit SHA is known, well-formed and
verified present in the destination, a fresh import branch is created
pointing at that SHA and used as the head (state CREATED_FROM_SHA); if the
SHA is absent or its commit is not found in the destination, the base branch
is used as the head and nothing is created (state FALLBACK_TO_BASE). -/
theorem branch_state_machine
    (st : GH) (source_branch target_branch sha : String)
    (hsb : source_branch ≠ "")
    (hmiss : github_branch_exists st source_branch = false) :
    ((sha ≠ "" ∧ shaCharsOk sha = true ∧ github_commit_exists st sha = true
        ∧ github_branch_exists st ("import/" ++ source_branch) = false) →
      (ensure_head_and_base st source_branch target_branch sha).1.1 = "import/" ++ source_branch
      ∧ (ensure_head_and_base st source_branch target_branch sha).1.2.2 = true
      ∧ shaOfBranch (ensure_head_and_base st source_branch target_branch sha).2
          ("import/" ++ source_branch) = some sha)
    ∧ ((sha = "" ∨ github_commit_exists st sha = false) →
      (ensure_head_and_base st source_branch target_branch sha).1.1
        = (ensure_head_and_base st source_branch target_branch sha).1.2.1
      ∧ (ensure_head_and_base st source_branch target_branch sha).1.2.2 = false
      ∧ (ensure_head_and_base st source_branch target_branch sha).2 = st) := by
  constructor
  · rintro ⟨hsha, hchars, hcommit, hfresh⟩
    have hlook : st.branches.lookup ("import/" ++ source_branch) = none := by
      rw [github_branch_exists] at hfresh
      exact Option.not_isSome_iff_eq_none.mp (by simp [hfresh])
    have hcb1 : (create_branch_from_sha st ("import/" ++ source_branch) sha).1 = true := by
      simp [create_branch_from_sha, GH.postRef, hsha, hchars, hcommit, hlook]
    have hcb2 : (create_branch_from_sha st ("import/" ++ source_branch) sha).2.branches
        = st.branches ++ [("import/" ++ source_branch, sha)] := by
      simp [create_branch_from_sha, GH.postRef, hsha, hchars, hcommit, hlook]
    unfold ensure_head_and_base
    dsimp only
    simp only [if_neg hsb, hmiss, Bool.false_eq_true, if_false]
    rw [if_pos hsha, if_pos hcb1]
    refine ⟨rfl, rfl, ?_⟩
    rw [shaOfBranch]
    dsimp only
    rw [hcb2, lookup_append, hlook]
    simp [List.lookup]
  · intro hcase
    unfold ensure_head_and_base
    dsimp only
    simp only [if_neg hsb, hmiss, Bool.false_eq_true, if_false]
    rcases hcase with hsha | hcommit
    · rw [if_neg (by simp [hsha])]
      exact ⟨rfl, rfl, rfl⟩
    · have hcb : create_branch_from_sha st ("import/" ++ source_branch) sha = (false, st) := by
        unfold create_branch_from_sha
        dsimp only
        split
        · rfl
        · rw [if_pos (by simp [hcommit])]
      by_cases hsha : sha ≠ ""
      · rw [if_pos hsha, hcb]
        exact ⟨rfl, rfl, rfl⟩
      · rw [if_neg hsha]
        exact ⟨rfl, rfl, rfl⟩

open GitlabPrToGithub in
/-- Claim C3 witness: with branch main at commit aaa, missing branch
feature and commit bbb present, the resolver creates import/feature at bbb;
with an empty SHA it falls back to head = base with the state unchanged. -/
theorem branch_state_machine_witness :
    (let st : GH := ⟨[("main", "aaa")], ["aaa", "bbb"], "main", [], [], [], [], [], 1, [], 0, 0⟩
     (ensure_head_and_base st "feature" "main" "bbb").1.1 = "import/feature"
     ∧ (ensure_head_and_base st "feature" "main" "bbb").1.2.2 = true
     ∧ shaOfBranch (ensure_head_and_base st "feature" "main" "bbb").2 "import/feature" = some "bbb")
    ∧ (let st : GH := ⟨[("main", "aaa")], ["aaa", "bbb"], "main", [], [], [], [], [], 1, [], 0, 0⟩
     (ensure_head_and_base st "feature" "main" "").1.1
        = (ensure_head_and_base st "feature" "main" "").1.2.1
     ∧ (ensure_head_and_base st "feature" "main" "").1.2.2 = false
     ∧ (ensure_head_and_base st "feature" "main" "").2 = st) := by
  constructor
  · exact (branch_state_machine _ "feature" "main" "bbb" (by decide) (by decide)).1
      ⟨by decide, by decide, by decide, by decide⟩
  · exact (branch_state_machine _ "feature" "main" "" (by decide) (by decide)).2 (Or.inl rfl)

open GitlabPrToGithub in
/-- Claim C6: a conflict / already-exists response to a create operation is
treated as success, never as an error: ensuring an existing label changes
nothing and raises no warning, creating an existing branch ref returns
success with the state unchanged, and creating an existing repository
returns success (with a logged warning) instead of raising. -/
theorem conflict_already_exists_is_success
    (st : GH) (name branch sha : String) (org : MigrateBdsf.OrgState) (repo : String)
    (hlbl : st.labels.contains name = true)
    (hbr : github_branch_exists st branch = true)
    (hsha : sha ≠ "") (hchars : shaCharsOk sha = true)
    (hcommit : github_commit_exists st sha = true)
    (hrepo : org.repos.contains repo = true) :
    ensure_labels st [name] = st
    ∧ create_branch_from_sha st branch sha = (true, st)
    ∧ MigrateBdsf.create_github_repo org repo
      = .ok { org with warnings := org.warnings + 1 } := by
  have hmem : name ∈ st.labels := by simpa using hlbl
  have hmemr : repo ∈ org.repos := by simpa using hrepo
  have hbr2 : (st.branches.lookup branch).isSome = true := by
    rw [github_branch_exists] at hbr
    exact hbr
  refine ⟨?_, ?_, ?_⟩
  · simp [ensure_labels, GH.postLabel, hmem]
  · have hsc : strContains "Validation Failed: Reference already exists"
        "Reference already exists" = true := by decide
    simp [create_branch_from_sha, GH.postRef, hsha, hchars, hcommit, hbr2, hsc]
  · simp [MigrateBdsf.create_github_repo, MigrateBdsf.OrgState.postRepo, hmemr]

open GitlabPrToGithub in
/-- Claim C6 witness: a state already holding label bug, branch feature and
commit bbb, and an organisation already holding repo r. -/
theorem conflict_already_exists_is_success_witness :
    (let st : GH := ⟨[("feature", "bbb")], ["bbb"], "main", [], [], ["bug"], [], [], 1, [], 0, 0⟩
     ensure_labels st ["bug"] = st
     ∧ create_branch_from_sha st "feature" "bbb" = (true, st))
    ∧ MigrateBdsf.create_github_repo ⟨["r"], 0⟩ "r" = .ok ⟨["r"], 1⟩ := by
  have h := conflict_already_exists_is_success
    ⟨[("feature", "bbb")], ["bbb"], "main", [], [], ["bug"], [], [], 1, [], 0, 0⟩
    "bug" "feature" "bbb" ⟨["r"], 0⟩ "r"
    (by decide) (by decide) (by decide) (by decide) (by decide) (by decide)
  exact ⟨⟨h.1, h.2.1⟩, h.2.2⟩

open GitlabPrToGithub in
/-- Claim C4: given a "no diff / invalid head" failure on pull-request
creation, the fallback is selected by the single `issue_when_nodiff` switch:
with the switch on, exactly one issue (no pull request) tagged with the
historical-mr label is created for the record; with the switch off, no
destination object is created and exactly one warning is recorded. -/
theorem fallback_policy_determinism
    (umap : List (String × String)) (st st1 : GH) (head base : String) (created : Bool)
    (pid : Nat) (mr : MR) (args : Args)
    (hens : ensure_head_and_base st mr.source_branch mr.target_branch mr.head_sha
      = ((head, base, created), st1))
    (hfind : find_existing_pr_by_marker st1 (mkMarker pid mr.iid) = none)
    (hhead : github_branch_exists st1 head = true)
    (hbase : github_branch_exists st1 base = true)
    (hnodiff : shaOfBranch st1 head = shaOfBranch st1 base)
    (hdry : args.dry_run = false) :
    (args.issue_when_nodiff = true →
      processMR umap st pid mr args
        = .ok { st1 with
                  issues := st1.issues ++ [⟨st1.nextNumber, "[Historical MR] " ++ mr.title,
                    mrBody umap pid mr, ["historical-mr"], "open", none, []⟩],
                  nextNumber := st1.nextNumber + 1,
                  log := st1.log ++ [Act.createIssueAct st1.nextNumber],
                  warnings := st1.warnings + 1 })
    ∧ (args.issue_when_nodiff = false →
      processMR umap st pid mr args = .ok { st1 with warnings := st1.warnings + 1 }) := by
  have hcg : create_or_get_pr st1 mr.title (mrBody umap pid mr) head base (mkMarker pid mr.iid)
      = .error ⟨422, "Validation Failed: No commits between " ++ base ++ " and " ++ head⟩ := by
    unfold create_or_get_pr
    rw [hfind]
    dsimp only
    unfold GH.postPR
    rw [if_neg (by simp [hhead, hbase])]
    rw [if_pos hnodiff]
  have hsc : strContains ("Validation Failed: No commits between " ++ base ++ " and " ++ head)
      "No commits between" = true := by
    have h1 : strContains "Validation Failed: No commits between " "No commits between" = true := by
      decide
    exact strContains_append_left _ head _
      (strContains_append_left _ " and " _ (strContains_append_left _ base _ h1))
  constructor
  · intro hflag
    unfold processMR
    dsimp only
    simp only [hdry, Bool.false_eq_true, if_false]
    rw [hens]
    dsimp only
    rw [hcg]
    dsimp only
    simp only [hsc, Bool.true_or, if_pos]
    simp only [hflag, if_pos]
    simp [create_issue, GH.postIssue]
  · intro hflag
    unfold processMR
    dsimp only
    simp only [hdry, Bool.false_eq_true, if_false]
    rw [hens]
    dsimp only
    rw [hcg]
    dsimp only
    simp only [hsc, Bool.true_or, if_pos]
    simp only [hflag, Bool.false_eq_true, if_false]

open GitlabPrToGithub in
/-- Claim C4 witness: a repository whose main branch is also the merge
request's source and target (so the server reports "No commits between"),
exercised with the fallback switch on and off. -/
theorem fallback_policy_determinism_witness :
    (let st : GH := ⟨[("main", "aaa")], ["aaa"], "main", [], [], [], [], [], 1, [], 0, 0⟩
     let mr : MR := ⟨2, "t", "d", "alice", "main", "main", "", "opened", false, "", "", [], "", []⟩
     processMR [] st 1 mr ⟨false, false, true⟩
        = .ok { st with
                  issues := [⟨1, "[Historical MR] t", mrBody [] 1 mr, ["historical-mr"],
                    "open", none, []⟩],
                  nextNumber := 2,
                  log := [Act.createIssueAct 1],
                  warnings := 1 }
     ∧ processMR [] st 1 mr ⟨false, false, false⟩ = .ok { st with warnings := 1 }) := by
  constructor
  · exact (fallback_policy_determinism [] _ _ "main" "main" false 1 _ ⟨false, false, true⟩
      (by decide)
      (by simp only [find_existing_pr_by_marker, findPRPageLoop_eq_find]; decide)
      (by decide) (by decide) (by decide) (by decide)).1 rfl
  · exact (fallback_policy_determinism [] _ _ "main" "main" false 1 _ ⟨false, false, false⟩
      (by decide)
      (by simp only [find_existing_pr_by_marker, findPRPageLoop_eq_find]; decide)
      (by decide) (by decide) (by decide) (by decide)).2 rfl

open GitlabPrToGithub MigrateRepoWithLfs in
/-- Claim C9: for every migrated record, the terminal state transition
(close / merge) is the last destination mutation: in the per-record trace of
`import_project_mrs` and of `migrate_issues_gitlab_to_github`, every action
before the last one is a content action (create, label, milestone, comment),
never a close or merge, so a partially-populated object is never left in a
terminal state. -/
theorem final_state_transition_last :
    (∀ (umap : List (String × String)) (st : GH) (pid : Nat) (mr : MR) (args : Args) (st' : GH),
        processMR umap st pid mr args = .ok st' →
        ∃ t, st'.log = st.log ++ t ∧ TerminalLast t)
    ∧ (∀ (um : Option (List (String × String))) (st : GH) (issue : GLIssue),
        ∃ t, (migrate_one_issue um st issue).2.log = st.log ++ t ∧ TerminalLast t) :=
  ⟨fun umap st pid mr args st' h => processMR_terminalLast umap st pid mr args st' h,
   fun um st issue => migrate_one_issue_terminalLast um st issue⟩

open GitlabPrToGithub in
/-- Claim C9 witness: a merged merge request with one note, imported into a
repository where head and base exist and differ; the recorded trace creates
the pull request and attaches the comment before the final merge
transition. -/
theorem final_state_transition_last_witness :
    ∃ t, (⟨[("main", "aaa"), ("feature", "bbb")], ["aaa", "bbb"], "main",
       [⟨1, "t", mrBody [] 1 ⟨2, "t", "d", "alice", "feature", "main", "", "opened", true, "", "",
           [], "", [⟨"bob", "note", "", false⟩]⟩, "feature", "main", "merged", [], none⟩],
       [], [], [], [(1, noteCommentText [] ⟨"bob", "note", "", false⟩)], 2,
       [Act.createPRAct 1, Act.addCommentAct 1, Act.mergeAct 1], 0, 0⟩ : GH).log
      = (⟨[("main", "aaa"), ("feature", "bbb")], ["aaa", "bbb"], "main",
          [], [], [], [], [], 1, [], 0, 0⟩ : GH).log ++ t ∧ TerminalLast t := by
  refine final_state_transition_last.1 []
    ⟨[("main", "aaa"), ("feature", "bbb")], ["aaa", "bbb"], "main", [], [], [], [], [], 1, [], 0, 0⟩
    1 ⟨2, "t", "d", "alice", "feature", "main", "", "opened", true, "", "",
       [], "", [⟨"bob", "note", "", false⟩]⟩ ⟨false, false, false⟩ _ ?_
  unfold processMR create_or_get_pr find_existing_pr_by_marker
  simp only [findPRPageLoop_eq_find]
  rfl

open GitlabPrToGithub in
/-- Claim C10: the destination repository name replaces every "/" of the
source full path by "__", and the mapping is not injective: the distinct
source paths "a/b" and "a__b" flatten to the same destination name, in both
scripts that implement the flattening. -/
theorem flatten_repo_name_not_injective :
    flatten_repo_name "a/b" = "a__b"
    ∧ flatten_repo_name "a__b" = "a__b"
    ∧ ("a/b" : String) ≠ "a__b"
    ∧ flatten_repo_name "a/b" = flatten_repo_name "a__b"
    ∧ MigrateBdsf.bdsfFlatten "a/b" = MigrateBdsf.bdsfFlatten "a__b" := by
  decide

end Migration
